import Mathlib

/-!
Verification development for the SID energy-cap BTC valuation model
(`src/components/EnergyCapBTCModel.tsx`).

The model is a deterministic numeric pipeline.  The halving schedule
(`KNOWN_ERAS`, `genFutureEras`, `subsidyOnDate`) works on calendar dates and
on subsidies that are dyadic rationals with denominator at most `2 ^ 27`
(`50, 25, ..., 3.125, 3.125/2, ..., 3.125/2^24`), all exactly representable
by the doubles of the source; we store them as exact integer multiples of
`2 ^ (-27)` BTC so the whole schedule is kernel-computable, and recover the
BTC-valued rational through `Era.subsidyBTC`.  The valuation pipeline
(`worldElectricityTWh`, `electricityPriceUSDkWh`, `cpiFactor`,
`anchoredAdoption`, `priceFromEnergyCap`) uses `Math.exp`, `Math.log` and
`Math.pow` and is embedded over `ℝ`: the claims about it are exact algebraic
identities and inequalities of the real-number idealisation of the
floating-point code.
-/

namespace SID

/-- A UTC calendar date, as denoted by an ISO `y-m-d` string fed to the
JavaScript `Date` constructor. -/
structure DateYMD where
  y : Int
  m : Int
  d : Int
deriving DecidableEq

/-- Day number since the Unix epoch 1970-01-01 of a civil date
(the standard days-from-civil algorithm).  `new Date(iso).getTime()` for an
ISO date string is exactly this number times `86400000`. -/
def daysFromCivil (y m d : Int) : Int :=
  let yy := y - (if m ≤ 2 then 1 else 0)
  let era := (if 0 ≤ yy then yy else yy - 399) / 400
  let yoe := yy - era * 400
  let mp := (m + 9) % 12
  let doy := (153 * mp + 2) / 5 + d - 1
  let doe := yoe * 365 + yoe / 4 - yoe / 100 + doy
  era * 146097 + doe - 719468

/-- The millisecond timestamp `new Date(iso).getTime()` of a calendar date. -/
def DateYMD.time (x : DateYMD) : Int := daysFromCivil x.y x.m x.d * 86400000

/-- One halving era: a start date and the block subsidy from that date on,
stored exactly as an integer multiple of `2 ^ (-27)` BTC. -/
structure Era where
  start : DateYMD
  subsidy : Int
deriving DecidableEq

instance : Inhabited Era := ⟨⟨⟨1970, 1, 1⟩, 0⟩⟩

/-- The subsidy of an era in BTC (`50`, `25`, `12.5`, ...). -/
def Era.subsidyBTC (e : Era) : ℚ := (e.subsidy : ℚ) / 2 ^ 27

/-- `KNOWN_ERAS` of the source: the five published halving checkpoints
(50, 25, 12.5, 6.25 and 3.125 BTC). -/
def KNOWN_ERAS : List Era :=
  [⟨⟨2009, 1, 3⟩, 6710886400⟩,
   ⟨⟨2012, 11, 28⟩, 3355443200⟩,
   ⟨⟨2016, 7, 9⟩, 1677721600⟩,
   ⟨⟨2020, 5, 11⟩, 838860800⟩,
   ⟨⟨2024, 4, 20⟩, 419430400⟩]

/-- `genFutureEras(startISO, s0, n)`: starting from a date and a subsidy,
generate `n` future eras, each 4 calendar years after the previous one
(`setFullYear(+4)` on a month/day that exists in every year) with half the
previous subsidy.  On the scaled-integer representation the halving `s / 2`
is exact for every subsidy this table ever holds: the 24th halving of
`419430400 = 25 * 2 ^ 24` is `25`, so truncating integer division agrees
with the source's exact floating-point halving on every entry. -/
def genFutureEras : DateYMD → Int → Nat → List Era
  | _, _, 0 => []
  | dt, s, Nat.succ n =>
    let nd : DateYMD := ⟨dt.y + 4, dt.m, dt.d⟩
    ⟨nd, s / 2⟩ :: genFutureEras nd (s / 2) n

/-- `ALL_ERAS = [...KNOWN_ERAS, ...genFutureEras("2024-04-20", 3.125, 24)]`. -/
def ALL_ERAS : List Era := KNOWN_ERAS ++ genFutureEras ⟨2024, 4, 20⟩ (419430400) 24

/-- The loop body of `subsidyOnDate`: scan the era list in order, updating the
accumulator while the era start time is `≤ t`, and break at the first era
starting after `t`. -/
def subsidyLoop (t : Int) : List Era → Int → Int
  | [], s => s
  | e :: rest, s => if e.start.time ≤ t then subsidyLoop t rest e.subsidy else s

/-- `subsidyOnDate(iso)` of the source, taking the parsed timestamp
`t = new Date(iso).getTime()`: the subsidy of the last era whose start is
`≤ t`, initialised with `ALL_ERAS[0].subsidy` (still in multiples of
`2 ^ (-27)` BTC). -/
def subsidyOnDate (t : Int) : Int := subsidyLoop t ALL_ERAS ALL_ERAS.headI.subsidy

/-- `subsidyOnDate` in BTC, the value the valuation engine consumes. -/
def subsidyBTCOnDate (t : Int) : ℚ := (subsidyOnDate t : ℚ) / 2 ^ 27

/-- Subsidy of the last era of a list, with a default for the empty list
(the accumulator value `subsidyLoop` would carry past that list). -/
def lastSub : List Era → Int → Int
  | [], s => s
  | e :: rest, _ => lastSub rest e.subsidy

/-- `true` iff the accumulator dominates the head subsidy and the subsidies
of the list are non-increasing from there on. -/
def descChain : Int → List Era → Bool
  | _, [] => true
  | s, e :: rest => decide (e.subsidy ≤ s) && descChain e.subsidy rest

/-- One step of the generated-era cadence: start 4 calendar years later,
subsidy exactly halved. -/
def eraStepB (a b : Era) : Bool :=
  decide (b.start = ⟨a.start.y + 4, a.start.m, a.start.d⟩) && decide (b.subsidy * 2 = a.subsidy)

/-- Kernel-computable check that consecutive eras follow the cadence. -/
def eraChainB : List Era → Bool
  | [] => true
  | [_] => true
  | a :: b :: rest => eraStepB a b && eraChainB (b :: rest)

/-! ## The real-valued valuation pipeline

The remaining functions of the source use `Math.exp`, `Math.log` and
`Math.pow`, so they are embedded over `ℝ` (hence noncomputably); integer
exponents become `zpow` and fractional-year exponents become `Real.rpow`. -/

noncomputable section

/-- One entry of `PRESETS`: scenario multipliers. -/
structure Preset where
  capUtilMultiplier : ℝ
  elecPriceMultiplier : ℝ
  markup : ℝ

/-- `PRESETS.Bearish = { capUtilMultiplier: 0.7, elecPriceMultiplier: 0.844, markup: 1.2 }`. -/
def Bearish : Preset := ⟨0.7, 0.844, 1.2⟩

/-- `PRESETS.Base = { capUtilMultiplier: 1.0, elecPriceMultiplier: 1.0, markup: 1.5 }`. -/
def Base : Preset := ⟨1.0, 1.0, 1.5⟩

/-- `PRESETS.Bullish = { capUtilMultiplier: 1.0, elecPriceMultiplier: 1.169, markup: 2.0 }`. -/
def Bullish : Preset := ⟨1.0, 1.169, 2.0⟩

/-- The user-adjustable scalar model state (the spec's `ModelInputs`,
the React state `capSharePct`, `feesPct`, `elecBaseUSDkWh`, `elecDriftPct`,
`cpiPct`, `overheadPhi`). -/
structure Inputs where
  capSharePct : ℝ
  feesPct : ℝ
  elecBaseUSDkWh : ℝ
  elecDriftPct : ℝ
  cpiPct : ℝ
  overheadPhi : ℝ

/-- The component's historical-share state as fetched from `/api/history`:
`histByYear` (the share for a year, when the table has a numeric entry —
the `twh` field of the payload is never read by the model), `histLastYear`
and `histLastShare`, each nullable. -/
structure Hist where
  byYear : Int → Option ℝ
  lastYear : Option Int
  lastShare : Option ℝ

/-- `CONFIG.baseDateISO = "2025-10-01"`. -/
def baseDateISO : DateYMD := ⟨2025, 10, 1⟩

/-- `CONFIG.worldElecBaseTWh2024 = 30000`. -/
def worldElecBaseTWh2024 : ℝ := 30000

/-- `CONFIG.worldElecGrowth = 0.025`. -/
def worldElecGrowth : ℝ := 0.025

/-- `ADOPTION.steepness = 0.55`. -/
def steepness : ℝ := 0.55

/-- `ADOPTION.floor = 1e-6`. -/
def adoptionFloor : ℝ := 1e-6

/-- `BLOCKS_PER_YEAR = (365.2425 * 24 * 3600) / 600`. -/
def BLOCKS_PER_YEAR : ℝ := (365.2425 * 24 * 3600) / 600

/-- `yearsBetween(a, b)`: fractional 365.2425-day years between the
timestamps of two dates. -/
def yearsBetween (a b : DateYMD) : ℝ :=
  ((b.time - a.time : Int) : ℝ) / (365.2425 * 24 * 3600 * 1000)

/-- `worldElectricityTWh(iso)`: 30000 TWh at 2024 compounding at 2.5 % per
year of `getUTCFullYear` difference (an integer exponent in the source). -/
def worldElectricityTWh (y : Int) : ℝ :=
  worldElecBaseTWh2024 * (1 + worldElecGrowth) ^ (y - 2024)

/-- `electricityPriceUSDkWh(iso, p)`: drifted base price times the scenario
multiplier. -/
def electricityPriceUSDkWh (inp : Inputs) (d : DateYMD) (p : Preset) : ℝ :=
  inp.elecBaseUSDkWh * (1 + inp.elecDriftPct / 100) ^ yearsBetween baseDateISO d *
    p.elecPriceMultiplier

/-- `cpiFactor(iso)`. -/
def cpiFactor (inp : Inputs) (d : DateYMD) : ℝ :=
  (1 + inp.cpiPct / 100) ^ yearsBetween baseDateISO d

open Classical in
/-- `anchoredAdoption(iso, p)`: the anchored logistic adoption factor.  The
source guards `capShareFraction > 0` before dividing, and falls back to the
base year 2025 / anchor share 0.001 when the history state is null
(`isFinite(histLastShare)` is a float artifact: every `ℝ` is finite, so the
fallback fires exactly when `histLastShare` is null). -/
def anchoredAdoption (inp : Inputs) (hist : Hist) (d : DateYMD) (p : Preset) : ℝ :=
  let capShareFraction := inp.capSharePct / 100 * p.capUtilMultiplier
  let baseYear := hist.lastYear.getD baseDateISO.y
  let anchorShare := hist.lastShare.getD 0.001
  let a0Raw := if 0 < capShareFraction then anchorShare / capShareFraction else 0.01
  let a0 := max (adoptionFloor + 1e-6) (min (1 - 1e-6) a0Raw)
  let y0 := (baseYear : ℝ) - 1 / steepness * Real.log (1 / a0 - 1)
  let x := 1 / (1 + Real.exp (-steepness * ((d.y : ℝ) - y0)))
  max adoptionFloor (min 1 x)

/-- The network-share computation inlined in `priceFromEnergyCap` (the spec's
`shareAt`): the measured table value when the year has a numeric entry,
otherwise `(capSharePct/100) * util * anchoredAdoption`. -/
def shareAt (inp : Inputs) (hist : Hist) (d : DateYMD) (p : Preset) : ℝ :=
  match hist.byYear d.y with
  | some s => s
  | none => inp.capSharePct / 100 * p.capUtilMultiplier * anchoredAdoption inp hist d p

/-- The record returned by `priceFromEnergyCap`. -/
structure ValuationResult where
  S : ℝ
  S_eff : ℝ
  fairPerBTC : ℝ
  fairPerBTCReal : ℝ
  floorPerBTC : ℝ
  share : ℝ

/-- `priceFromEnergyCap(iso, p)` — the valuation engine. -/
def priceFromEnergyCap (inp : Inputs) (hist : Hist) (d : DateYMD) (p : Preset) :
    ValuationResult :=
  let S : ℝ := ((subsidyBTCOnDate d.time : ℚ) : ℝ)
  let S_eff := S * (1 + inp.feesPct / 100)
  let worldTWh := worldElectricityTWh d.y
  let share := shareAt inp hist d p
  let btcTWh := worldTWh * share
  let energyPerBlockWh := btcTWh * 1e12 / BLOCKS_PER_YEAR
  let usdPerKWh := electricityPriceUSDkWh inp d p
  let costPerBlockUSD := energyPerBlockWh / 1000 * usdPerKWh * inp.overheadPhi
  let floorPerBTC := costPerBlockUSD / S_eff
  let fairPerBTC := floorPerBTC * p.markup
  let fairPerBTCReal := fairPerBTC / cpiFactor inp d
  ⟨S, S_eff, fairPerBTC, fairPerBTCReal, floorPerBTC, share⟩

end

/-- The `useState` defaults of the component's model dials. -/
def defaultInputs : Inputs := ⟨1.5, 15, 0.06, 1.0, 2.5, 1.15⟩

/-- The defaults with the base electricity price made negative (a permitted
garbage-in input per the spec's electricity price model). -/
def negElecInputs : Inputs := ⟨1.5, 15, -0.06, 1.0, 2.5, 1.15⟩

/-- The defaults with the cap-share percentage set to `0`. -/
def zeroCapInputs : Inputs := ⟨0, 15, 0.06, 1.0, 2.5, 1.15⟩

/-- The history state before `/api/history` resolves: everything null. -/
def emptyHist : Hist := ⟨fun _ => none, none, none⟩

/-- A history state whose last measured point is `(2025, 0.001)` and whose
table has no entry for any year (the anchor-year entry removed). -/
def anchorHist : Hist := ⟨fun _ => none, some 2025, some 0.001⟩

/-- A history state with a measured entry `0.002` for the year 2020. -/
def tableHist : Hist :=
  ⟨fun y => if y = 2020 then some 0.002 else none, some 2020, some 0.002⟩

lemma subsidyLoop_le (t : Int) :
    ∀ (l : List Era) (s : Int), descChain s l = true → subsidyLoop t l s ≤ s := by
  intro l
  induction l with
  | nil => intro s _; simp [subsidyLoop]
  | cons e rest ih =>
    intro s hd
    simp only [descChain, Bool.and_eq_true, decide_eq_true_eq] at hd
    by_cases h : e.start.time ≤ t
    · simpa [subsidyLoop, h] using le_trans (ih e.subsidy hd.2) hd.1
    · simp [subsidyLoop, h]

lemma subsidyLoop_antitone (t₁ t₂ : Int) (ht : t₁ ≤ t₂) :
    ∀ (l : List Era) (s : Int), descChain s l = true →
      subsidyLoop t₂ l s ≤ subsidyLoop t₁ l s := by
  intro l
  induction l with
  | nil => intro s _; simp [subsidyLoop]
  | cons e rest ih =>
    intro s hd
    simp only [descChain, Bool.and_eq_true, decide_eq_true_eq] at hd
    by_cases h1 : e.start.time ≤ t₁
    · have h2 : e.start.time ≤ t₂ := le_trans h1 ht
      simpa [subsidyLoop, h1, h2] using ih e.subsidy hd.2
    · by_cases h2 : e.start.time ≤ t₂
      · simp only [subsidyLoop, h1, h2, if_true, if_false]
        exact le_trans (subsidyLoop_le t₂ rest e.subsidy hd.2) hd.1
      · simp [subsidyLoop, h1, h2]

lemma subsidyLoop_front (t : Int) :
    ∀ (l₁ l₂ : List Era) (s : Int), (∀ f ∈ l₁, f.start.time ≤ t) →
      subsidyLoop t (l₁ ++ l₂) s = subsidyLoop t l₂ (lastSub l₁ s) := by
  intro l₁
  induction l₁ with
  | nil => intro l₂ s _; simp [lastSub]
  | cons e rest ih =>
    intro l₂ s h
    have he : e.start.time ≤ t := h e (List.mem_cons_self e rest)
    simp only [List.cons_append, subsidyLoop, he, if_true, lastSub]
    exact ih l₂ e.subsidy fun f hf => h f (List.mem_cons_of_mem e hf)

lemma subsidyLoop_stop (t : Int) (s : Int) :
    ∀ l : List Era, (l = [] ∨ ∃ f r, l = f :: r ∧ t < f.start.time) →
      subsidyLoop t l s = s := by
  intro l h
  rcases h with h | ⟨f, r, rfl, hf⟩
  · subst h; rfl
  · simp [subsidyLoop, not_le.mpr hf]

/-- Value of the era-scanning loop on a window `[e.start, next era start)`. -/
lemma subsidyLoop_window (t : Int) (s : Int) (l₁ l₂ : List Era) (e : Era)
    (h₁ : ∀ f ∈ l₁, f.start.time ≤ t) (h₂ : e.start.time ≤ t)
    (h₃ : l₂ = [] ∨ ∃ f r, l₂ = f :: r ∧ t < f.start.time) :
    subsidyLoop t (l₁ ++ e :: l₂) s = e.subsidy := by
  rw [subsidyLoop_front t l₁ (e :: l₂) s h₁]
  simp only [subsidyLoop, h₂, if_true]
  exact subsidyLoop_stop t e.subsidy l₂ h₃

lemma subsidyLoop_pos (t : Int) :
    ∀ (l : List Era) (s : Int), 0 < s → (∀ e ∈ l, 0 < e.subsidy) →
      0 < subsidyLoop t l s := by
  intro l
  induction l with
  | nil => intro s hs _; simpa [subsidyLoop] using hs
  | cons e rest ih =>
    intro s hs hl
    by_cases h : e.start.time ≤ t
    · simpa [subsidyLoop, h] using
        ih e.subsidy (hl e (List.mem_cons_self e rest))
          (fun f hf => hl f (List.mem_cons_of_mem e hf))
    · simpa [subsidyLoop, h] using hs

lemma subsidyOnDate_def (t : Int) :
    subsidyOnDate t = subsidyLoop t ALL_ERAS (6710886400) := rfl

lemma eraChainB_chain' : ∀ l : List Era, eraChainB l = true →
    List.Chain'
      (fun a b : Era =>
        b.start = ⟨a.start.y + 4, a.start.m, a.start.d⟩ ∧ b.subsidy * 2 = a.subsidy) l
  | [], _ => by simp
  | [a], _ => by simp
  | a :: b :: rest, h => by
    simp only [eraChainB, eraStepB, Bool.and_eq_true, decide_eq_true_eq] at h
    exact List.chain'_cons.mpr ⟨h.1, eraChainB_chain' (b :: rest) h.2⟩

/-- Every subsidy the schedule can return is strictly positive. -/
lemma subsidyOnDate_pos (t : Int) : 0 < subsidyOnDate t := by
  rw [subsidyOnDate_def]
  exact subsidyLoop_pos t ALL_ERAS (6710886400) (by decide)
    (by decide : ∀ e ∈ ALL_ERAS, 0 < e.subsidy)

lemma subsidyBTCOnDate_pos (t : Int) : 0 < subsidyBTCOnDate t := by
  have h := subsidyOnDate_pos t
  unfold subsidyBTCOnDate
  positivity

/-- Claim C6: for each of the five known halving checkpoints
(2009-01-03: 50, 2012-11-28: 25, 2016-07-09: 12.5, 2020-05-11: 6.25,
2024-04-20: 3.125), `subsidyOnDate` returns exactly that checkpoint's subsidy
for every date at or after its start and before the next checkpoint (the next
generated era 2028-04-20 for the last one), and the genesis subsidy 50 for
every date strictly before 2009-01-03; in particular strictly before each
checkpoint's start (and within the previous era) it returns the previous
era's subsidy. -/
theorem claim6_checkpoints (t : Int) :
    (t < (⟨2009, 1, 3⟩ : DateYMD).time → subsidyBTCOnDate t = 50) ∧
    ((⟨2009, 1, 3⟩ : DateYMD).time ≤ t → t < (⟨2012, 11, 28⟩ : DateYMD).time →
      subsidyBTCOnDate t = 50) ∧
    ((⟨2012, 11, 28⟩ : DateYMD).time ≤ t → t < (⟨2016, 7, 9⟩ : DateYMD).time →
      subsidyBTCOnDate t = 25) ∧
    ((⟨2016, 7, 9⟩ : DateYMD).time ≤ t → t < (⟨2020, 5, 11⟩ : DateYMD).time →
      subsidyBTCOnDate t = 12.5) ∧
    ((⟨2020, 5, 11⟩ : DateYMD).time ≤ t → t < (⟨2024, 4, 20⟩ : DateYMD).time →
      subsidyBTCOnDate t = 6.25) ∧
    ((⟨2024, 4, 20⟩ : DateYMD).time ≤ t → t < (⟨2028, 4, 20⟩ : DateYMD).time →
      subsidyBTCOnDate t = 3.125) := by
  refine ⟨?_, ?_, ?_, ?_, ?_, ?_⟩
  · intro h
    have hval : subsidyOnDate t = 6710886400 := by
      rw [subsidyOnDate_def]
      exact subsidyLoop_stop t _ ALL_ERAS
        (Or.inr ⟨⟨⟨2009, 1, 3⟩, 6710886400⟩, ALL_ERAS.drop 1, by decide, h⟩)
    unfold subsidyBTCOnDate
    rw [hval]
    norm_num
  · intro h1 h2
    have e1 : ALL_ERAS = ALL_ERAS.take 0 ++ ⟨⟨2009, 1, 3⟩, 6710886400⟩ :: ALL_ERAS.drop 1 := by
      decide
    have hpre : ∀ f ∈ ALL_ERAS.take 0, f.start.time ≤ t := by
      intro f hf
      rw [List.take_zero] at hf
      exact absurd hf (List.not_mem_nil f)
    have hnext : ALL_ERAS.drop 1 = ⟨⟨2012, 11, 28⟩, 3355443200⟩ :: ALL_ERAS.drop 2 := by decide
    have hval : subsidyOnDate t = 6710886400 := by
      rw [subsidyOnDate_def, e1]
      exact subsidyLoop_window t _ _ _ _ hpre h1 (Or.inr ⟨_, _, hnext, h2⟩)
    unfold subsidyBTCOnDate
    rw [hval]
    norm_num
  · intro h1 h2
    have e1 : ALL_ERAS = ALL_ERAS.take 1 ++ ⟨⟨2012, 11, 28⟩, 3355443200⟩ :: ALL_ERAS.drop 2 := by
      decide
    have hpre : ∀ f ∈ ALL_ERAS.take 1, f.start.time ≤ t := by
      intro f hf
      exact le_trans ((by decide : ∀ f ∈ ALL_ERAS.take 1,
        f.start.time ≤ (⟨2012, 11, 28⟩ : DateYMD).time) f hf) h1
    have hnext : ALL_ERAS.drop 2 = ⟨⟨2016, 7, 9⟩, 1677721600⟩ :: ALL_ERAS.drop 3 := by decide
    have hval : subsidyOnDate t = 3355443200 := by
      rw [subsidyOnDate_def, e1]
      exact subsidyLoop_window t _ _ _ _ hpre h1 (Or.inr ⟨_, _, hnext, h2⟩)
    unfold subsidyBTCOnDate
    rw [hval]
    norm_num
  · intro h1 h2
    have e1 : ALL_ERAS = ALL_ERAS.take 2 ++ ⟨⟨2016, 7, 9⟩, 1677721600⟩ :: ALL_ERAS.drop 3 := by
      decide
    have hpre : ∀ f ∈ ALL_ERAS.take 2, f.start.time ≤ t := by
      intro f hf
      exact le_trans ((by decide : ∀ f ∈ ALL_ERAS.take 2,
        f.start.time ≤ (⟨2016, 7, 9⟩ : DateYMD).time) f hf) h1
    have hnext : ALL_ERAS.drop 3 = ⟨⟨2020, 5, 11⟩, 838860800⟩ :: ALL_ERAS.drop 4 := by decide
    have hval : subsidyOnDate t = 1677721600 := by
      rw [subsidyOnDate_def, e1]
      exact subsidyLoop_window t _ _ _ _ hpre h1 (Or.inr ⟨_, _, hnext, h2⟩)
    unfold subsidyBTCOnDate
    rw [hval]
    norm_num
  · intro h1 h2
    have e1 : ALL_ERAS = ALL_ERAS.take 3 ++ ⟨⟨2020, 5, 11⟩, 838860800⟩ :: ALL_ERAS.drop 4 := by
      decide
    have hpre : ∀ f ∈ ALL_ERAS.take 3, f.start.time ≤ t := by
      intro f hf
      exact le_trans ((by decide : ∀ f ∈ ALL_ERAS.take 3,
        f.start.time ≤ (⟨2020, 5, 11⟩ : DateYMD).time) f hf) h1
    have hnext : ALL_ERAS.drop 4 = ⟨⟨2024, 4, 20⟩, 419430400⟩ :: ALL_ERAS.drop 5 := by decide
    have hval : subsidyOnDate t = 838860800 := by
      rw [subsidyOnDate_def, e1]
      exact subsidyLoop_window t _ _ _ _ hpre h1 (Or.inr ⟨_, _, hnext, h2⟩)
    unfold subsidyBTCOnDate
    rw [hval]
    norm_num
  · intro h1 h2
    have e1 : ALL_ERAS = ALL_ERAS.take 4 ++ ⟨⟨2024, 4, 20⟩, 419430400⟩ :: ALL_ERAS.drop 5 := by
      decide
    have hpre : ∀ f ∈ ALL_ERAS.take 4, f.start.time ≤ t := by
      intro f hf
      exact le_trans ((by decide : ∀ f ∈ ALL_ERAS.take 4,
        f.start.time ≤ (⟨2024, 4, 20⟩ : DateYMD).time) f hf) h1
    have hnext : ALL_ERAS.drop 5 = ⟨⟨2028, 4, 20⟩, 209715200⟩ :: ALL_ERAS.drop 6 := by decide
    have hval : subsidyOnDate t = 419430400 := by
      rw [subsidyOnDate_def, e1]
      exact subsidyLoop_window t _ _ _ _ hpre h1 (Or.inr ⟨_, _, hnext, h2⟩)
    unfold subsidyBTCOnDate
    rw [hval]
    norm_num

/-- Witness for C6 at concrete dates: a date in each of three windows. -/
theorem claim6_checkpoints_witness :
    subsidyBTCOnDate (⟨2008, 6, 1⟩ : DateYMD).time = 50 ∧
    subsidyBTCOnDate (⟨2015, 1, 1⟩ : DateYMD).time = 25 ∧
    subsidyBTCOnDate (⟨2025, 10, 1⟩ : DateYMD).time = 3.125 :=
  ⟨(claim6_checkpoints _).1 (by decide),
   (claim6_checkpoints _).2.2.1 (by decide) (by decide),
   (claim6_checkpoints _).2.2.2.2.2 (by decide) (by decide)⟩

/-- Claim C7: the subsidy is non-increasing in the date, and beyond the
last known checkpoint every generated era starts exactly 4 calendar years
after the previous one with exactly half its subsidy. -/
theorem claim7_halving :
    (∀ t₁ t₂ : Int, t₁ ≤ t₂ → subsidyBTCOnDate t₂ ≤ subsidyBTCOnDate t₁) ∧
    List.Chain'
      (fun a b : Era =>
        b.start = ⟨a.start.y + 4, a.start.m, a.start.d⟩ ∧
          b.subsidyBTC = a.subsidyBTC / 2)
      (ALL_ERAS.drop 4) := by
  constructor
  · intro t₁ t₂ ht
    have h' : subsidyOnDate t₂ ≤ subsidyOnDate t₁ := by
      rw [subsidyOnDate_def, subsidyOnDate_def]
      exact subsidyLoop_antitone t₁ t₂ ht ALL_ERAS _ (by decide)
    unfold subsidyBTCOnDate
    gcongr

  · have h := eraChainB_chain' (ALL_ERAS.drop 4) (by decide)
    refine h.imp ?_
    intro a b hab
    refine ⟨hab.1, ?_⟩
    unfold Era.subsidyBTC
    rw [div_div, ← hab.2]
    push_cast
    ring

/-- Witness for C7: the non-increasing part at two concrete dates. -/
theorem claim7_halving_witness :
    subsidyBTCOnDate (⟨2030, 1, 1⟩ : DateYMD).time ≤
      subsidyBTCOnDate (⟨2010, 1, 1⟩ : DateYMD).time :=
  claim7_halving.1 _ _ (by decide)

/-- Counterexample for C9 as stated: no era of the generated table starts
100 or more years after the last known checkpoint 2024-04-20 (the latest
generated era starts 2120-04-20, only 96 years later). -/
theorem claim9_counterexample :
    ¬ ∃ e ∈ ALL_ERAS, (⟨2124, 4, 20⟩ : DateYMD).time ≤ e.start.time := by
  decide

/-- Claim C9 amended: beyond the last known era, halving eras are generated
on an exact 4-calendar-year cadence covering 96 years forward: the table
contains an era starting exactly 96 years after 2024-04-20
(namely 2120-04-20). -/
theorem claim9_amended :
    (∃ e ∈ ALL_ERAS, e.start = ⟨2120, 4, 20⟩ ∧
      (⟨2024 + 96, 4, 20⟩ : DateYMD).time ≤ e.start.time) ∧
    List.Chain'
      (fun a b : Era =>
        b.start = ⟨a.start.y + 4, a.start.m, a.start.d⟩ ∧ b.subsidy * 2 = a.subsidy)
      (ALL_ERAS.drop 4) :=
  ⟨by decide, eraChainB_chain' (ALL_ERAS.drop 4) (by decide)⟩



/-! ## Bounds of the adoption factor -/

lemma adoptionFloor_le_anchoredAdoption (inp : Inputs) (hist : Hist) (d : DateYMD)
    (p : Preset) : (1e-6 : ℝ) ≤ anchoredAdoption inp hist d p := by
  simp only [anchoredAdoption, adoptionFloor]
  exact le_max_left _ _

lemma anchoredAdoption_le_one (inp : Inputs) (hist : Hist) (d : DateYMD)
    (p : Preset) : anchoredAdoption inp hist d p ≤ 1 := by
  simp only [anchoredAdoption, adoptionFloor]
  exact max_le (by norm_num) (min_le_left _ _)

lemma anchoredAdoption_pos (inp : Inputs) (hist : Hist) (d : DateYMD)
    (p : Preset) : 0 < anchoredAdoption inp hist d p :=
  lt_of_lt_of_le (by norm_num) (adoptionFloor_le_anchoredAdoption inp hist d p)

/-- Claim C2: when the historical table has a numeric share for the target
year, the valuation uses exactly that value (round-trip identity); the
projected logistic branch is not consulted. -/
theorem claim2_lookup (inp : Inputs) (hist : Hist) (d : DateYMD) (p : Preset)
    (s : ℝ) (h : hist.byYear d.y = some s) :
    (priceFromEnergyCap inp hist d p).share = s := by
  simp [priceFromEnergyCap, shareAt, h]

/-- Witness for C2: the table value `0.002` stored for 2020 is returned
verbatim. -/
theorem claim2_lookup_witness :
    (priceFromEnergyCap defaultInputs tableHist ⟨2020, 6, 1⟩ Base).share = 0.002 :=
  claim2_lookup defaultInputs tableHist ⟨2020, 6, 1⟩ Base 0.002 rfl

/-- Claim C3: the valuation returns exactly the spec's formula chain:
`floorPerBTC = (((worldTWh * share * 1e12) / blocksPerYear) / 1000) *
priceUSDPerKWh * overheadPhi / (subsidyAt * (1 + feesPct/100))`,
`fairPerBTC = floorPerBTC * markup`, `fairPerBTCReal = fairPerBTC /
cpiFactor`, with `blocksPerYear = (365.2425*24*3600)/600` and
`worldTWh = 30000 * 1.025 ^ (year - 2024)`. -/
theorem claim3_formula (inp : Inputs) (hist : Hist) (d : DateYMD) (p : Preset) :
    (priceFromEnergyCap inp hist d p).floorPerBTC =
      worldElectricityTWh d.y * (priceFromEnergyCap inp hist d p).share * 1e12 /
        BLOCKS_PER_YEAR / 1000 * electricityPriceUSDkWh inp d p * inp.overheadPhi /
        (((subsidyBTCOnDate d.time : ℚ) : ℝ) * (1 + inp.feesPct / 100)) ∧
    (priceFromEnergyCap inp hist d p).fairPerBTC =
      (priceFromEnergyCap inp hist d p).floorPerBTC * p.markup ∧
    (priceFromEnergyCap inp hist d p).fairPerBTCReal =
      (priceFromEnergyCap inp hist d p).fairPerBTC / cpiFactor inp d ∧
    BLOCKS_PER_YEAR = 365.2425 * 24 * 3600 / 600 ∧
    worldElectricityTWh d.y = 30000 * 1.025 ^ (d.y - 2024) := by
  refine ⟨rfl, rfl, rfl, rfl, ?_⟩
  norm_num [worldElectricityTWh, worldElecBaseTWh2024, worldElecGrowth]

/-- Claim C10: whenever the projected branch applies and the cap-share
fraction is positive, the projected share lies between
`capShareFraction * 1e-6` and `capShareFraction` (the configured ceiling). -/
theorem claim10_bounds (inp : Inputs) (hist : Hist) (d : DateYMD) (p : Preset)
    (hcf : 0 < inp.capSharePct / 100 * p.capUtilMultiplier)
    (hn : hist.byYear d.y = none) :
    inp.capSharePct / 100 * p.capUtilMultiplier * 1e-6 ≤ shareAt inp hist d p ∧
    shareAt inp hist d p ≤ inp.capSharePct / 100 * p.capUtilMultiplier := by
  have h1 := adoptionFloor_le_anchoredAdoption inp hist d p
  have h2 := anchoredAdoption_le_one inp hist d p
  simp only [shareAt, hn]
  constructor
  · exact mul_le_mul_of_nonneg_left h1 hcf.le
  · calc inp.capSharePct / 100 * p.capUtilMultiplier * anchoredAdoption inp hist d p
        ≤ inp.capSharePct / 100 * p.capUtilMultiplier * 1 :=
          mul_le_mul_of_nonneg_left h2 hcf.le
      _ = inp.capSharePct / 100 * p.capUtilMultiplier := mul_one _

/-- Witness for C10 at the default dials, Base scenario, year 2030. -/
theorem claim10_bounds_witness :
    defaultInputs.capSharePct / 100 * Base.capUtilMultiplier * 1e-6 ≤
      shareAt defaultInputs emptyHist ⟨2030, 1, 1⟩ Base ∧
    shareAt defaultInputs emptyHist ⟨2030, 1, 1⟩ Base ≤
      defaultInputs.capSharePct / 100 * Base.capUtilMultiplier :=
  claim10_bounds defaultInputs emptyHist ⟨2030, 1, 1⟩ Base
    (by norm_num [defaultInputs, Base]) rfl

/-- Claim C8: when `capShareFraction ≤ 0` the share estimator takes the
guarded branch (no division by the fraction): the anchor ratio is the
default `0.01`, and the returned adoption factor is a finite value in
`[1e-6, 1]`. -/
theorem claim8_zero_cap (inp : Inputs) (hist : Hist) (d : DateYMD) (p : Preset)
    (hcf : inp.capSharePct / 100 * p.capUtilMultiplier ≤ 0) :
    anchoredAdoption inp hist d p =
      max adoptionFloor (min 1
        (1 / (1 + Real.exp (-steepness * ((d.y : ℝ) -
          ((hist.lastYear.getD baseDateISO.y : ℤ) -
            1 / steepness * Real.log (1 / (0.01 : ℝ) - 1))))))) ∧
    (1e-6 : ℝ) ≤ anchoredAdoption inp hist d p ∧ anchoredAdoption inp hist d p ≤ 1 := by
  refine ⟨?_, adoptionFloor_le_anchoredAdoption inp hist d p,
    anchoredAdoption_le_one inp hist d p⟩
  simp only [anchoredAdoption]
  rw [if_neg (not_lt.mpr hcf)]
  norm_num [adoptionFloor]

/-- Witness for C8 with the cap share dialled to `0` (Base scenario). -/
theorem claim8_zero_cap_witness :
    (1e-6 : ℝ) ≤ anchoredAdoption zeroCapInputs emptyHist ⟨2030, 1, 1⟩ Base ∧
    anchoredAdoption zeroCapInputs emptyHist ⟨2030, 1, 1⟩ Base ≤ 1 :=
  (claim8_zero_cap zeroCapInputs emptyHist ⟨2030, 1, 1⟩ Base
    (by norm_num [zeroCapInputs, Base])).2


/-! ## The logistic curve -/

lemma one_div_one_add_exp_le {A B : ℝ} (h : B ≤ A) :
    1 / (1 + Real.exp A) ≤ 1 / (1 + Real.exp B) := by
  have h2 : Real.exp B ≤ Real.exp A := Real.exp_le_exp.mpr h
  have hp : 0 < 1 + Real.exp B := by positivity
  exact one_div_le_one_div_of_le hp (by linarith)

lemma one_div_sub_one_pos {a : ℝ} (h0 : 0 < a) (h1 : a < 1) : 0 < 1 / a - 1 := by
  have h2 : (1:ℝ) < 1 / a := by rw [lt_div_iff h0, one_mul]; exact h1
  linarith

/-- With the source's midpoint `y0 = B - (1/steepness) * log (1/a0 - 1)`, the
logistic evaluated at the anchor abscissa `B` equals `1 - a0` — not `a0` as
the source's inline comment asserts. -/
lemma logistic_at_anchor (B a0 : ℝ) (h0 : 0 < a0) (h1 : a0 < 1) :
    1 / (1 + Real.exp (-steepness * (B - (B - 1 / steepness * Real.log (1 / a0 - 1))))) =
      1 - a0 := by
  have hs0 : steepness ≠ 0 := by norm_num [steepness]
  have hq : 0 < 1 / a0 - 1 := one_div_sub_one_pos h0 h1
  have harg : -steepness * (B - (B - 1 / steepness * Real.log (1 / a0 - 1)))
      = -Real.log (1 / a0 - 1) := by
    field_simp
    ring
  rw [harg, Real.exp_neg, Real.exp_log hq]
  have h1a : (1:ℝ) - a0 ≠ 0 := by linarith
  have h0' : a0 ≠ 0 := ne_of_gt h0
  have key : (1:ℝ) + (1 / a0 - 1)⁻¹ = 1 / (1 - a0) := by
    rw [show (1:ℝ) / a0 - 1 = (1 - a0) / a0 by field_simp, inv_div]
    field_simp
  rw [key, one_div_one_div]

/-- Claim C5: for a fixed scenario (nonnegative utilization), nonnegative
cap-share percentage and fixed history, the projected share is monotonically
non-decreasing in the year beyond the anchor year. -/
theorem claim5_monotone (inp : Inputs) (hist : Hist) (d₁ d₂ : DateYMD) (p : Preset)
    (hpct : 0 ≤ inp.capSharePct) (hutil : 0 ≤ p.capUtilMultiplier)
    (hanchor : hist.lastYear.getD baseDateISO.y < d₁.y) (hy : d₁.y ≤ d₂.y)
    (h₁ : hist.byYear d₁.y = none) (h₂ : hist.byYear d₂.y = none) :
    shareAt inp hist d₁ p ≤ shareAt inp hist d₂ p := by
  simp only [shareAt, h₁, h₂]
  refine mul_le_mul_of_nonneg_left ?_ (mul_nonneg (div_nonneg hpct (by norm_num)) hutil)
  simp only [anchoredAdoption]
  refine max_le_max le_rfl (min_le_min le_rfl ?_)
  refine one_div_one_add_exp_le ?_
  have hc : ((d₁.y : ℝ)) ≤ (d₂.y : ℝ) := Int.cast_le.mpr hy
  have hs : (0:ℝ) < steepness := by norm_num [steepness]
  nlinarith [mul_le_mul_of_nonneg_left hc hs.le]

/-- Witness for C5: defaults, anchor 2025, years 2030 and 2040. -/
theorem claim5_monotone_witness :
    shareAt defaultInputs anchorHist ⟨2030, 1, 1⟩ Base ≤
      shareAt defaultInputs anchorHist ⟨2040, 1, 1⟩ Base :=
  claim5_monotone defaultInputs anchorHist ⟨2030, 1, 1⟩ ⟨2040, 1, 1⟩ Base
    (by norm_num [defaultInputs]) (by norm_num [Base])
    (by norm_num [anchorHist]) (by norm_num) rfl rfl

/-- Claim C1 (code bug): with anchor `(2025, 0.001)`, cap share 1.5 % and the
Base scenario (`capShareFraction = 0.015`, so `a0 = 1/15`), the projected
branch evaluated at the anchor year itself returns
`0.015 * (1 - 1/15) = 0.014`, not the anchor share `0.001`: the source's
`y0 = baseYear - (1/steepness) * log(1/a0 - 1)` places the curve through
`(baseYear, 1 - a0)` instead of `(baseYear, a0)`, contradicting its own
inline comment and breaking continuity at the historical boundary. -/
theorem claim1_boundary_eval :
    shareAt defaultInputs anchorHist ⟨2025, 10, 1⟩ Base = 0.014 ∧
    anchorHist.lastShare = some 0.001 ∧ (0.014 : ℝ) ≠ 0.001 := by
  refine ⟨?_, rfl, by norm_num⟩
  have hA : anchoredAdoption defaultInputs anchorHist ⟨2025, 10, 1⟩ Base = 1 - 1 / 15 := by
    simp only [anchoredAdoption, defaultInputs, Base, anchorHist, Option.getD_some]
    rw [if_pos (by norm_num : (0:ℝ) < 1.5 / 100 * 1.0)]
    rw [show (0.001 : ℝ) / (1.5 / 100 * 1.0) = 1 / 15 by norm_num]
    rw [min_eq_right (by norm_num : (1:ℝ) / 15 ≤ 1 - 1e-6),
      max_eq_right (by norm_num [adoptionFloor] : adoptionFloor + 1e-6 ≤ 1 / 15)]
    rw [logistic_at_anchor _ _ (by norm_num) (by norm_num)]
    rw [min_eq_right (by norm_num), max_eq_right (by norm_num [adoptionFloor])]
  show defaultInputs.capSharePct / 100 * Base.capUtilMultiplier *
      anchoredAdoption defaultInputs anchorHist ⟨2025, 10, 1⟩ Base = 0.014
  rw [hA]
  norm_num [defaultInputs, Base]


/-! ## Scenario ordering -/

/-- `fairPerBTC` factored as a scenario-independent coefficient times
`share * (elecPriceMultiplier * markup)`. -/
lemma fairPerBTC_eq (inp : Inputs) (hist : Hist) (d : DateYMD) (p : Preset) :
    (priceFromEnergyCap inp hist d p).fairPerBTC =
      worldElectricityTWh d.y * 1e12 / BLOCKS_PER_YEAR / 1000 *
        (inp.elecBaseUSDkWh *
          (1 + inp.elecDriftPct / 100) ^ yearsBetween baseDateISO d) *
        inp.overheadPhi /
        (((subsidyBTCOnDate d.time : ℚ) : ℝ) * (1 + inp.feesPct / 100)) *
        (shareAt inp hist d p * (p.elecPriceMultiplier * p.markup)) := by
  simp only [priceFromEnergyCap, electricityPriceUSDkWh]
  ring

lemma worldElectricityTWh_pos (y : Int) : 0 < worldElectricityTWh y := by
  unfold worldElectricityTWh worldElecBaseTWh2024 worldElecGrowth
  positivity

lemma subsidyReal_pos (t : Int) : (0:ℝ) < ((subsidyBTCOnDate t : ℚ) : ℝ) := by
  exact_mod_cast subsidyBTCOnDate_pos t

/-- Base and Bullish have the same utilization multiplier, hence the same
network share. -/
lemma shareAt_bullish_base (inp : Inputs) (hist : Hist) (d : DateYMD) :
    shareAt inp hist d Bullish = shareAt inp hist d Base := rfl

lemma shareAt_nonneg (inp : Inputs) (hist : Hist) (d : DateYMD) (p : Preset)
    (hpct : 0 ≤ inp.capSharePct) (hu : 0 ≤ p.capUtilMultiplier)
    (htab : ∀ y s, hist.byYear y = some s → 0 ≤ s) :
    0 ≤ shareAt inp hist d p := by
  cases h : hist.byYear d.y with
  | some s => simpa [shareAt, h] using htab d.y s h
  | none =>
    simp only [shareAt, h]
    exact mul_nonneg (mul_nonneg (div_nonneg hpct (by norm_num)) hu)
      (anchoredAdoption_pos inp hist d p).le

lemma exp_arg_mono {Y B L₁ L₂ : ℝ} (h : L₂ ≤ L₁) :
    -steepness * (Y - (B - 1 / steepness * L₁)) ≤
      -steepness * (Y - (B - 1 / steepness * L₂)) := by
  have hs0 : steepness ≠ 0 := by norm_num [steepness]
  have e1 : ∀ L : ℝ, -steepness * (Y - (B - 1 / steepness * L)) =
      -(steepness * Y) + steepness * B - L := by
    intro L
    field_simp
    ring
  rw [e1, e1]
  linarith

/-- A lower utilization multiplier (Bearish 0.7 vs Base 1.0) yields a lower
adoption factor: the anchor ratio is larger, the midpoint moves later, and
the logistic value at any fixed year is smaller. -/
lemma anchoredAdoption_bearish_le_base (inp : Inputs) (hist : Hist) (d : DateYMD)
    (hpct : 0 ≤ inp.capSharePct) (hA : 0 ≤ hist.lastShare.getD 0.001) :
    anchoredAdoption inp hist d Bearish ≤ anchoredAdoption inp hist d Base := by
  simp only [anchoredAdoption, Bearish, Base]
  rcases eq_or_lt_of_le (div_nonneg hpct (by norm_num : (0:ℝ) ≤ 100)) with h0 | h0
  · rw [if_neg (by rw [← h0]; norm_num), if_neg (by rw [← h0]; norm_num)]
  · have hbe : (0:ℝ) < inp.capSharePct / 100 * 0.7 := by nlinarith
    have hba : (0:ℝ) < inp.capSharePct / 100 * 1.0 := by nlinarith
    rw [if_pos hbe, if_pos hba]
    have hRaw : hist.lastShare.getD 0.001 / (inp.capSharePct / 100 * 1.0) ≤
        hist.lastShare.getD 0.001 / (inp.capSharePct / 100 * 0.7) := by
      rw [div_le_div_iff hba hbe]
      nlinarith [mul_nonneg hA h0.le]
    have ha0 : max (adoptionFloor + 1e-6)
          (min (1 - 1e-6) (hist.lastShare.getD 0.001 / (inp.capSharePct / 100 * 1.0))) ≤
        max (adoptionFloor + 1e-6)
          (min (1 - 1e-6) (hist.lastShare.getD 0.001 / (inp.capSharePct / 100 * 0.7))) :=
      max_le_max le_rfl (min_le_min le_rfl hRaw)
    have h1l : (0:ℝ) < max (adoptionFloor + 1e-6)
        (min (1 - 1e-6) (hist.lastShare.getD 0.001 / (inp.capSharePct / 100 * 1.0))) :=
      lt_of_lt_of_le (by norm_num [adoptionFloor]) (le_max_left _ _)
    have h2l : (0:ℝ) < max (adoptionFloor + 1e-6)
        (min (1 - 1e-6) (hist.lastShare.getD 0.001 / (inp.capSharePct / 100 * 0.7))) :=
      lt_of_lt_of_le (by norm_num [adoptionFloor]) (le_max_left _ _)
    have h2u : max (adoptionFloor + 1e-6)
        (min (1 - 1e-6) (hist.lastShare.getD 0.001 / (inp.capSharePct / 100 * 0.7))) < 1 :=
      lt_of_le_of_lt
        (max_le (by norm_num [adoptionFloor]) (min_le_left _ _)) (by norm_num)
    have hlog : Real.log (1 / max (adoptionFloor + 1e-6)
          (min (1 - 1e-6) (hist.lastShare.getD 0.001 / (inp.capSharePct / 100 * 0.7))) - 1) ≤
        Real.log (1 / max (adoptionFloor + 1e-6)
          (min (1 - 1e-6) (hist.lastShare.getD 0.001 / (inp.capSharePct / 100 * 1.0))) - 1) := by
      apply Real.log_le_log (one_div_sub_one_pos h2l h2u)
      have h12 := one_div_le_one_div_of_le h1l ha0
      linarith
    refine max_le_max le_rfl (min_le_min le_rfl ?_)
    exact one_div_one_add_exp_le (exp_arg_mono hlog)


/-- Counterexample to C4 as stated: with the base electricity price set to
the negative value `-0.06` (explicitly permitted garbage-in per the spec's
electricity price model) the ordering flips: the Bullish fair price is
strictly below the Base fair price at 2030-01-01 with an empty history. -/
theorem claim4_counterexample :
    (priceFromEnergyCap negElecInputs emptyHist ⟨2030, 1, 1⟩ Bullish).fairPerBTC <
      (priceFromEnergyCap negElecInputs emptyHist ⟨2030, 1, 1⟩ Base).fairPerBTC := by
  rw [fairPerBTC_eq, fairPerBTC_eq, shareAt_bullish_base]
  have hCneg : worldElectricityTWh (⟨2030, 1, 1⟩ : DateYMD).y * 1e12 / BLOCKS_PER_YEAR /
      1000 * (negElecInputs.elecBaseUSDkWh * (1 + negElecInputs.elecDriftPct / 100) ^
        yearsBetween baseDateISO ⟨2030, 1, 1⟩) * negElecInputs.overheadPhi /
      (((subsidyBTCOnDate (⟨2030, 1, 1⟩ : DateYMD).time : ℚ) : ℝ) *
        (1 + negElecInputs.feesPct / 100)) < 0 := by
    have hW := worldElectricityTWh_pos (⟨2030, 1, 1⟩ : DateYMD).y
    have hBPY : (0:ℝ) < BLOCKS_PER_YEAR := by norm_num [BLOCKS_PER_YEAR]
    have hS := subsidyReal_pos (⟨2030, 1, 1⟩ : DateYMD).time
    have hrp : (0:ℝ) < (1 + negElecInputs.elecDriftPct / 100) ^
        yearsBetween baseDateISO ⟨2030, 1, 1⟩ :=
      Real.rpow_pos_of_pos (by norm_num [negElecInputs]) _
    apply div_neg_of_neg_of_pos
    · apply mul_neg_of_neg_of_pos
      · apply mul_neg_of_pos_of_neg
        · exact div_pos (div_pos (mul_pos hW (by norm_num)) hBPY) (by norm_num)
        · exact mul_neg_of_neg_of_pos (by norm_num [negElecInputs]) hrp
      · norm_num [negElecInputs]
    · exact mul_pos hS (by norm_num [negElecInputs])
  have hshpos : 0 < shareAt negElecInputs emptyHist ⟨2030, 1, 1⟩ Base := by
    have he : shareAt negElecInputs emptyHist ⟨2030, 1, 1⟩ Base =
        negElecInputs.capSharePct / 100 * Base.capUtilMultiplier *
          anchoredAdoption negElecInputs emptyHist ⟨2030, 1, 1⟩ Base := rfl
    rw [he]
    exact mul_pos (by norm_num [negElecInputs, Base])
      (anchoredAdoption_pos negElecInputs emptyHist ⟨2030, 1, 1⟩ Base)
  have hmk : shareAt negElecInputs emptyHist ⟨2030, 1, 1⟩ Base *
      (Base.elecPriceMultiplier * Base.markup) <
      shareAt negElecInputs emptyHist ⟨2030, 1, 1⟩ Base *
      (Bullish.elecPriceMultiplier * Bullish.markup) := by
    have : (Base.elecPriceMultiplier * Base.markup : ℝ) <
        Bullish.elecPriceMultiplier * Bullish.markup := by norm_num [Base, Bullish]
    exact mul_lt_mul_of_pos_left this hshpos
  exact mul_lt_mul_of_neg_left hmk hCneg

/-- Claim C4 amended: for inputs in their intended ranges (nonnegative base
electricity price, drift above −100 %, fee percentage above −100 %,
nonnegative overhead, nonnegative cap share, nonnegative historical shares)
the fair price per BTC is ordered Bearish ≤ Base ≤ Bullish at every date. -/
theorem claim4_amended (inp : Inputs) (hist : Hist) (d : DateYMD)
    (helec : 0 ≤ inp.elecBaseUSDkWh) (hdrift : -100 ≤ inp.elecDriftPct)
    (hfees : -100 < inp.feesPct) (hphi : 0 ≤ inp.overheadPhi)
    (hpct : 0 ≤ inp.capSharePct) (hA : 0 ≤ hist.lastShare.getD 0.001)
    (htab : ∀ y s, hist.byYear y = some s → 0 ≤ s) :
    (priceFromEnergyCap inp hist d Bearish).fairPerBTC ≤
      (priceFromEnergyCap inp hist d Base).fairPerBTC ∧
    (priceFromEnergyCap inp hist d Base).fairPerBTC ≤
      (priceFromEnergyCap inp hist d Bullish).fairPerBTC := by
  rw [fairPerBTC_eq, fairPerBTC_eq, fairPerBTC_eq, shareAt_bullish_base]
  have hCnn : 0 ≤ worldElectricityTWh d.y * 1e12 / BLOCKS_PER_YEAR / 1000 *
      (inp.elecBaseUSDkWh * (1 + inp.elecDriftPct / 100) ^
        yearsBetween baseDateISO d) * inp.overheadPhi /
      (((subsidyBTCOnDate d.time : ℚ) : ℝ) * (1 + inp.feesPct / 100)) := by
    have hW := worldElectricityTWh_pos d.y
    have hBPY : (0:ℝ) < BLOCKS_PER_YEAR := by norm_num [BLOCKS_PER_YEAR]
    have hS := subsidyReal_pos d.time
    have hrp : (0:ℝ) ≤ (1 + inp.elecDriftPct / 100) ^ yearsBetween baseDateISO d :=
      Real.rpow_nonneg (by linarith) _
    apply div_nonneg
    · exact mul_nonneg
        (mul_nonneg
          (div_nonneg (div_nonneg (mul_pos hW (by norm_num)).le hBPY.le) (by norm_num))
          (mul_nonneg helec hrp)) hphi
    · exact (mul_pos hS (by linarith)).le
  have hba_nn : 0 ≤ shareAt inp hist d Base :=
    shareAt_nonneg inp hist d Base hpct (by norm_num [Base]) htab
  constructor
  · refine mul_le_mul_of_nonneg_left ?_ hCnn
    cases h : hist.byYear d.y with
    | some s =>
      have hs0 : 0 ≤ s := htab d.y s h
      simp only [shareAt, h]
      rw [show Bearish.elecPriceMultiplier = 0.844 from rfl,
        show Bearish.markup = 1.2 from rfl, show Base.elecPriceMultiplier = 1.0 from rfl,
        show Base.markup = 1.5 from rfl]
      nlinarith [hs0]
    | none =>
      simp only [shareAt, h]
      rw [show Bearish.capUtilMultiplier = 0.7 from rfl,
        show Bearish.elecPriceMultiplier = 0.844 from rfl,
        show Bearish.markup = 1.2 from rfl, show Base.capUtilMultiplier = 1.0 from rfl,
        show Base.elecPriceMultiplier = 1.0 from rfl, show Base.markup = 1.5 from rfl]
      have hAd := anchoredAdoption_bearish_le_base inp hist d hpct hA
      have hbe_pos := anchoredAdoption_pos inp hist d Bearish
      have hba_pos := anchoredAdoption_pos inp hist d Base
      have hp100 : (0:ℝ) ≤ inp.capSharePct / 100 := div_nonneg hpct (by norm_num)
      nlinarith [mul_nonneg hp100 hbe_pos.le, mul_nonneg hp100 hba_pos.le,
        mul_le_mul_of_nonneg_left hAd hp100]
  · refine mul_le_mul_of_nonneg_left ?_ hCnn
    refine mul_le_mul_of_nonneg_left ?_ hba_nn
    norm_num [Base, Bullish]

/-- Witness for the amended C4 at the default dials, empty history,
2030-01-01. -/
theorem claim4_amended_witness :
    (priceFromEnergyCap defaultInputs emptyHist ⟨2030, 1, 1⟩ Bearish).fairPerBTC ≤
      (priceFromEnergyCap defaultInputs emptyHist ⟨2030, 1, 1⟩ Base).fairPerBTC ∧
    (priceFromEnergyCap defaultInputs emptyHist ⟨2030, 1, 1⟩ Base).fairPerBTC ≤
      (priceFromEnergyCap defaultInputs emptyHist ⟨2030, 1, 1⟩ Bullish).fairPerBTC :=
  claim4_amended defaultInputs emptyHist ⟨2030, 1, 1⟩ (by norm_num [defaultInputs])
    (by norm_num [defaultInputs]) (by norm_num [defaultInputs])
    (by norm_num [defaultInputs]) (by norm_num [defaultInputs])
    (by norm_num [emptyHist]) (fun y s h => by simp [emptyHist] at h)

end SID
